import Mathlib

/-!
Verification of the foobar_db RESP server core: a shallow embedding of
`src/protocal/parser.rs`, `src/protocal/command.rs`, `src/db/storage.rs`,
`src/db/db.rs` and the connection pipeline of `src/server/client.rs`,
together with theorems settling the specification claims.

Bytes are modelled as `Nat` values below 256; Rust `String` payloads are
modelled as their UTF-8 byte sequences (`List Nat`).
-/

/-- UTF-8 bytes of an ASCII Lean string literal (every literal used in this
development is ASCII, where the UTF-8 encoding is the codepoint itself). -/
def strBytes (s : String) : List Nat :=
  s.data.map Char.toNat

/-- Is `b` a UTF-8 continuation byte (`0x80..=0xBF`)? -/
def isCont (b : Nat) : Bool :=
  0x80 ≤ b && b ≤ 0xBF

/-- UTF-8 validity of a byte sequence, following the byte-range table of
RFC 3629; models the check performed by Rust `String::from_utf8`. -/
def utf8Valid : List Nat → Bool
  | [] => true
  | b :: rest =>
    if b ≤ 0x7F then utf8Valid rest
    else if 0xC2 ≤ b && b ≤ 0xDF then
      match rest with
      | c1 :: rest2 => isCont c1 && utf8Valid rest2
      | [] => false
    else if b = 0xE0 then
      match rest with
      | c1 :: c2 :: rest2 => (0xA0 ≤ c1 && c1 ≤ 0xBF) && isCont c2 && utf8Valid rest2
      | _ => false
    else if (0xE1 ≤ b && b ≤ 0xEC) || b = 0xEE || b = 0xEF then
      match rest with
      | c1 :: c2 :: rest2 => isCont c1 && isCont c2 && utf8Valid rest2
      | _ => false
    else if b = 0xED then
      match rest with
      | c1 :: c2 :: rest2 => (0x80 ≤ c1 && c1 ≤ 0x9F) && isCont c2 && utf8Valid rest2
      | _ => false
    else if b = 0xF0 then
      match rest with
      | c1 :: c2 :: c3 :: rest2 =>
        (0x90 ≤ c1 && c1 ≤ 0xBF) && isCont c2 && isCont c3 && utf8Valid rest2
      | _ => false
    else if 0xF1 ≤ b && b ≤ 0xF3 then
      match rest with
      | c1 :: c2 :: c3 :: rest2 => isCont c1 && isCont c2 && isCont c3 && utf8Valid rest2
      | _ => false
    else if b = 0xF4 then
      match rest with
      | c1 :: c2 :: c3 :: rest2 =>
        (0x80 ≤ c1 && c1 ≤ 0x8F) && isCont c2 && isCont c3 && utf8Valid rest2
      | _ => false
    else false

/-- Byte-wise repair used by the slow path of `String::from_utf8_lossy`:
invalid bytes are replaced by the UTF-8 encoding EF BF BD of U+FFFD.  (The
claims under verification never evaluate this path: every simple string or
error payload they touch is valid ASCII, where the fast path below applies.) -/
def lossyRepair : List Nat → List Nat
  | [] => []
  | b :: rest =>
    if b ≤ 0x7F then b :: lossyRepair rest
    else 0xEF :: 0xBF :: 0xBD :: lossyRepair rest

/-- Model of Rust `String::from_utf8_lossy`: the identity on valid UTF-8
(the borrowed fast path of Rust), byte repair otherwise. -/
def fromUtf8Lossy (bs : List Nat) : List Nat :=
  if utf8Valid bs then bs else lossyRepair bs

/-- The RESP value model of `src/protocal/resp.rs` (the file itself is not
under `src/`; its variant shape is fixed by the value table of the spec and by the
uses in `parser.rs` and `command.rs`).  Rust string payloads (`Cow<str>`)
are modelled as UTF-8 byte lists. -/
inductive RespValue where
  | simpleString (s : List Nat)
  | respError (s : List Nat)
  | integer (i : Int)
  | bulkString (s : Option (List Nat))
  | array (xs : Option (List RespValue))
  | null

/-- Modelled from the spec: `RespValue::is_none` from the missing `resp.rs`.
The value table of the spec marks `Null`, the null bulk string (`$-1`) and the
null array (`*-1`) as the null forms of the model, so `is_none` holds of
exactly those three. -/
def RespValue.isNoneValue : RespValue → Bool
  | .null => true
  | .bulkString none => true
  | .array none => true
  | _ => false

/-- Model of `ParseError` from `src/protocal/parser.rs`. -/
inductive ParseError where
  | invalidFormat (msg : String)
  | invalidLength
  | unexpectedEof
  | overflow
  | notEnoughData
  deriving DecidableEq

/-- Model of `ParseState` from `src/protocal/parser.rs`. -/
inductive ParseState where
  | index (pos : Nat)
  | readingLength (pos : Nat) (value : Int) (negative : Bool) (typeChar : Nat)
  | readingBulkString (startPos : Nat) (remaining : Nat)
  | readingSimpleString (pos : Nat)
  | readingError (pos : Nat)
  | readingInteger (pos : Nat)
  | readingArray (pos : Nat) (total : Nat) (current : Nat) (elements : List RespValue)
  | stError (e : ParseError)
  | complete (v : Option RespValue)

/-- The `Parser` struct from `src/protocal/parser.rs`.  `maxDepth` is stored
but (exactly as in the source) never consulted by any transition. -/
structure Parser where
  buffer : List Nat
  state : ParseState
  maxDepth : Nat
  maxLength : Nat
  nestedStack : List ParseState

/-- Model of `MAX_ITERATIONS` from `parser.rs`. -/
def MAX_ITERATIONS : Nat := 128

/-- Model of `Parser::new`. -/
def Parser.new (maxDepth maxLength : Nat) : Parser :=
  { buffer := []
    state := .index 0
    maxDepth := maxDepth
    maxLength := maxLength
    nestedStack := [] }

/-- Model of `Parser::read_buf`: append bytes to the buffer of the parser. -/
def Parser.readBuf (p : Parser) (bs : List Nat) : Parser :=
  { p with buffer := p.buffer ++ bs }

/-- Loop body of `Parser::find_crlf`, fuelled by the buffer length (the scan
position strictly increases, so `buf.length` steps always suffice to reach
the own exit condition `pos < len - 1` of the loop). -/
def findCrlfGo (buf : List Nat) : Nat → Nat → Option Nat
  | _, 0 => none
  | pos, fuel + 1 =>
    if pos < buf.length - 1 then
      match buf.get? pos, buf.get? (pos + 1) with
      | some 0x0D, some 0x0A => some pos
      | some _, _ => findCrlfGo buf (pos + 1) fuel
      | _, _ => none
    else none

/-- Model of `Parser::find_crlf`. -/
def findCrlf (buf : List Nat) (start : Nat) : Option Nat :=
  findCrlfGo buf start buf.length

/-- Model of `Parser::handle_index`: dispatch on the type-prefix byte. -/
def handleIndex (buf : List Nat) (index : Nat) : ParseState :=
  if buf.length ≤ index then .index index
  else
    match buf.getD index 0 with
    | 0x2B => .readingSimpleString (index + 1)
    | 0x2D => .readingError (index + 1)
    | 0x3A => .readingInteger (index + 1)
    | 0x24 => .readingLength (index + 1) 0 false 0x24
    | 0x2A => .readingLength (index + 1) 0 false 0x2A
    | _ => .stError (.invalidFormat "Invalid type marker")

/-- Signed 64-bit range used by Rust `i64` checked arithmetic. -/
def i64InRange (x : Int) : Prop :=
  -(2 ^ 63) ≤ x ∧ x ≤ 2 ^ 63 - 1

instance (x : Int) : Decidable (i64InRange x) :=
  inferInstanceAs (Decidable (_ ∧ _))

/-- One digit step of `value.checked_mul(10)` followed by checked add or
subtract of the digit, as in `handle_length` and `handle_integer`. -/
def checkedStep (value : Int) (negative : Bool) (d : Nat) : Option Int :=
  if i64InRange (value * 10) then
    let v := value * 10
    let v2 := if negative then v - d else v + d
    if i64InRange v2 then some v2 else none
  else none

/-- Model of `Parser::handle_length`. -/
def handleLength (buf : List Nat) (pos : Nat) (value : Int) (negative : Bool)
    (typeChar : Nat) : ParseState :=
  match buf.get? pos with
  | some b =>
    if 0x30 ≤ b ∧ b ≤ 0x39 then
      match checkedStep value negative (b - 0x30) with
      | some v => .readingLength (pos + 1) v negative typeChar
      | none => .stError .overflow
    else if b = 0x2D then
      .readingLength (pos + 1) value true typeChar
    else if b = 0x0D then
      match buf.get? (pos + 1) with
      | some 0x0A =>
        if typeChar = 0x24 then
          if value = -1 then .complete (some .null)
          else if value < 0 then .stError .invalidLength
          else .readingBulkString (pos + 2) value.toNat
        else if typeChar = 0x2A then
          if value = -1 then .complete (some (.array none))
          else if value < 0 then .stError .invalidLength
          else .readingArray (pos + 2) value.toNat 0 []
        else if typeChar = 0x3A then .complete (some (.integer value))
        else .stError (.invalidFormat "Invalid length type")
      | _ => .stError (.invalidFormat "Expected \\n after \\r")
    else .stError (.invalidFormat "Invalid character in length")
  | none => .stError .unexpectedEof

/-- Model of `Parser::handle_bulk_string`. -/
def handleBulkString (buf : List Nat) (maxLength : Nat) (startPos remaining : Nat) :
    ParseState :=
  if maxLength < remaining then .stError .invalidLength
  else if remaining = 0 then .complete (some (.bulkString none))
  else
    let requiredLen := startPos + remaining + 2
    if buf.length < requiredLen then .stError .notEnoughData
    else if buf.getD (startPos + remaining) 0 ≠ 0x0D ∨
        buf.getD (startPos + remaining + 1) 0 ≠ 0x0A then
      .stError (.invalidFormat "Missing CRLF")
    else
      let payload := (buf.drop startPos).take remaining
      if utf8Valid payload then .complete (some (.bulkString (some payload)))
      else .stError (.invalidFormat "Invalid UTF-8")

/-- Model of `Parser::handle_array`: returns the successor state together with the
(possibly extended) nested stack.  The top of the stack (`Vec::push` /
`last_mut` / `pop` end in the source) is the head of the list here.  No
depth check appears in this function, exactly as in the source. -/
def handleArray (pos total current : Nat) (elements : List RespValue)
    (stack : List ParseState) : ParseState × List ParseState :=
  if total = 0 then (.complete (some (.array (some elements))), stack)
  else if total ≤ current then (.complete (some (.array (some elements))), stack)
  else (.index pos, .readingArray pos total current elements :: stack)

/-- Model of `Parser::handle_simple_string`. -/
def handleSimpleString (buf : List Nat) (pos : Nat) : ParseState :=
  match findCrlf buf pos with
  | some endPos =>
    .complete (some (.simpleString (fromUtf8Lossy ((buf.drop pos).take (endPos - pos)))))
  | none => .stError .unexpectedEof

/-- Model of `Parser::handle_error`. -/
def handleError (buf : List Nat) (pos : Nat) : ParseState :=
  match findCrlf buf pos with
  | some endPos =>
    .complete (some (.respError (fromUtf8Lossy ((buf.drop pos).take (endPos - pos)))))
  | none => .stError .unexpectedEof

/-- Digit-accumulation loop of `Parser::handle_integer` over the region
before the CRLF. -/
def parseDigits (negative : Bool) : List Nat → Int → Except ParseError Int
  | [], v => .ok v
  | b :: rest, v =>
    if 0x30 ≤ b ∧ b ≤ 0x39 then
      match checkedStep v negative (b - 0x30) with
      | some v2 => parseDigits negative rest v2
      | none => .error .overflow
    else .error (.invalidFormat "Invalid integer format")

/-- Model of `Parser::handle_integer`. -/
def handleInteger (buf : List Nat) (pos : Nat) : ParseState :=
  match findCrlf buf pos with
  | some endPos =>
    let negative := buf.get? pos = some 0x2D
    let start := if buf.get? pos = some 0x2D then pos + 1 else pos
    match parseDigits negative ((buf.drop start).take (endPos - start)) 0 with
    | .ok v => .complete (some (.integer v))
    | .error e => .stError e
  | none => .stError .unexpectedEof

/-- One dispatch of the `match &self.state` in `Parser::try_parse`: compute
the `next_state`, together with the nested stack as possibly extended by
`handle_array`. -/
def stepState (p : Parser) : ParseState × List ParseState :=
  match p.state with
  | .index pos => (handleIndex p.buffer pos, p.nestedStack)
  | .readingArray pos total current elements =>
    handleArray pos total current elements p.nestedStack
  | .readingLength pos value negative typeChar =>
    (handleLength p.buffer pos value negative typeChar, p.nestedStack)
  | .readingBulkString startPos remaining =>
    (handleBulkString p.buffer p.maxLength startPos remaining, p.nestedStack)
  | .readingSimpleString pos => (handleSimpleString p.buffer pos, p.nestedStack)
  | .readingError pos => (handleError p.buffer pos, p.nestedStack)
  | .readingInteger pos => (handleInteger p.buffer pos, p.nestedStack)
  | .stError e => (.stError e, p.nestedStack)
  | .complete v => (.complete v, p.nestedStack)

/-- Return path of `try_parse` after the array-frame bookkeeping: when the
emitted value is not a null form the buffer is cleared wholesale and the
state reset; otherwise buffer and state are left untouched. -/
def finishValue (value : RespValue) (p : Parser) :
    (Except ParseError (Option RespValue)) × Parser :=
  if value.isNoneValue then (.ok (some value), p)
  else (.ok (some value), { p with buffer := [], state := .index 0 })

/-- The iteration loop of `Parser::try_parse`, fuelled by the remaining
iteration budget; fuel 0 is the `iterations > MAX_ITERATIONS` exit.  On
`Complete(Some _)` with `current + 1 < total` at the stack top the loop
continues with `self.state` unchanged, exactly as the `continue` of the source
does. -/
def tryParseLoop : Nat → Parser → (Except ParseError (Option RespValue)) × Parser
  | 0, p => (.error (.invalidFormat "Maximum parsing iterations exceeded"), p)
  | fuel + 1, p =>
    let (nextState, stack1) := stepState p
    match nextState with
    | .complete (some value) =>
      (match stack1 with
      | .readingArray pos total current elements :: rest =>
        let elements2 := elements ++ [value]
        if current + 1 < total then
          tryParseLoop fuel
            { p with nestedStack := .readingArray pos total (current + 1) elements2 :: rest }
        else
          let completedArray := RespValue.array (some elements2)
          let rest2 :=
            match rest with
            | .readingArray pos2 total2 current2 elements3 :: rest3 =>
              ParseState.readingArray pos2 total2 current2 (elements3 ++ [completedArray]) :: rest3
            | other => other
          finishValue value { p with nestedStack := rest2 }
      | _ => finishValue value { p with nestedStack := stack1 })
    | .stError e =>
      (.error e, { p with state := .index 0, nestedStack := stack1 })
    | other => tryParseLoop fuel { p with state := other, nestedStack := stack1 }

/-- Model of `Parser::try_parse`. -/
def Parser.tryParse (p : Parser) : (Except ParseError (Option RespValue)) × Parser :=
  tryParseLoop MAX_ITERATIONS p

/-- Uppercasing used on the command name (`s.to_uppercase()` in
`Command::from_resp`): modelled on the ASCII range, where the Unicode
uppercasing coincides with ASCII uppercasing.  (Unicode-specific case
mappings of non-ASCII input are not modelled; every command name in the
claims is ASCII.) -/
def asciiUpper (s : List Nat) : List Nat :=
  s.map (fun b => if 0x61 ≤ b ∧ b ≤ 0x7A then b - 32 else b)

/-- The `Command` enum from `src/protocal/command.rs`.  Keys and values
(Rust `String`) are UTF-8 byte lists. -/
inductive Command where
  | get (key : List Nat)
  | set (key value : List Nat)
  | del (keys : List (List Nat))
  | lpush (key : List Nat) (values : List (List Nat))
  | rpush (key : List Nat) (values : List (List Nat))
  | lpop (key : List Nat)
  | rpop (key : List Nat)
  | sadd (key : List Nat) (members : List (List Nat))
  | srem (key : List Nat) (members : List (List Nat))
  | hset (key field value : List Nat)
  | hget (key field : List Nat)
  | ping
  | echo (message : List Nat)
  | unknown (command : List Nat)
  | info
  | command
  deriving DecidableEq

/-- Model of `StorageError` from `src/db/storage.rs`. -/
inductive StorageError where
  | keyNotFound (key : String)
  | invalidOperation (msg : String)
  | internal (msg : String)
  deriving DecidableEq

/-- Model of `CommandError` from `src/protocal/command.rs`.  The `StorageError`
payload `anyhow::Error` of that variant is modelled by the underlying
`StorageError`. -/
inductive CommandError where
  | wrongNumberOfArguments (command : String)
  | invalidCommandName
  | emptyCommand
  | invalidArgumentType
  | notImplemented
  | unknownCommand (command : List Nat)
  | storageError (e : StorageError)
  deriving DecidableEq

/-- Model of `Command::extract_string`. -/
def extractString : RespValue → Except CommandError (List Nat)
  | .bulkString (some s) => .ok s
  | .simpleString s => .ok s
  | _ => .error .invalidArgumentType

/-- Model of `iter().map(Self::extract_string).collect::<Result<Vec<_>, _>>()` as used
for DEL keys and LPUSH values. -/
def extractStrings : List RespValue → Except CommandError (List (List Nat))
  | [] => .ok []
  | v :: rest =>
    match extractString v with
    | .error e => .error e
    | .ok s =>
      match extractStrings rest with
      | .error e => .error e
      | .ok ss => .ok (s :: ss)

/-- The `match command_name.as_str()` body of `Command::from_resp`; `arr` is
the full element list (command name included), so the length checks match the
`array.len()` checks of the source verbatim. -/
def fromRespNamed (name : List Nat) (arr : List RespValue) :
    Except CommandError Command :=
  if name = strBytes "GET" then
    if arr.length ≠ 2 then .error (.wrongNumberOfArguments "get")
    else
      match extractString (arr.getD 1 .null) with
      | .error e => .error e
      | .ok key => .ok (.get key)
  else if name = strBytes "SET" then
    if arr.length ≠ 3 then .error (.wrongNumberOfArguments "set")
    else
      match extractString (arr.getD 1 .null) with
      | .error e => .error e
      | .ok key =>
        match extractString (arr.getD 2 .null) with
        | .error e => .error e
        | .ok value => .ok (.set key value)
  else if name = strBytes "DEL" then
    if arr.length < 2 then .error (.wrongNumberOfArguments "del")
    else
      match extractStrings (arr.drop 1) with
      | .error e => .error e
      | .ok keys => .ok (.del keys)
  else if name = strBytes "LPUSH" then
    if arr.length < 3 then .error (.wrongNumberOfArguments "lpush")
    else
      match extractString (arr.getD 1 .null) with
      | .error e => .error e
      | .ok key =>
        match extractStrings (arr.drop 2) with
        | .error e => .error e
        | .ok values => .ok (.lpush key values)
  else if name = strBytes "PING" then .ok .ping
  else if name = strBytes "INFO" then .ok .info
  else if name = strBytes "COMMAND" then .ok .command
  else .ok (.unknown name)

/-- Model of `Command::from_resp`.  Note the source has no `ECHO`, `RPUSH`, `LPOP`,
`RPOP`, `SADD`, `SREM`, `HSET` or `HGET` arm: those names fall through to the
`Unknown` catch-all. -/
def Command.fromResp : RespValue → Except CommandError Command
  | .array (some arr) =>
    match arr with
    | [] => .error .emptyCommand
    | first :: _ =>
      match first with
      | .bulkString (some s) => fromRespNamed (asciiUpper s) arr
      | .simpleString s => fromRespNamed (asciiUpper s) arr
      | _ => .error .invalidCommandName
  | _ => .error .invalidCommandName

/-- The concurrent map `DashMap<String, RespValue>` behind `DashMapStorage`,
modelled as an association list keyed by UTF-8 byte lists. -/
abbrev Store := List (List Nat × RespValue)

/-- Model of `DashMap::get` (point lookup). -/
def mapLookup : Store → List Nat → Option RespValue
  | [], _ => none
  | (k, v) :: rest, key => if k = key then some v else mapLookup rest key

/-- Model of `DashMap::insert`: replaces any existing entry, returning the prior
value. -/
def mapInsert : Store → List Nat → RespValue → Option RespValue × Store
  | [], key, value => (none, [(key, value)])
  | (k, v) :: rest, key, value =>
    if k = key then (some v, (key, value) :: rest)
    else
      let (prior, rest2) := mapInsert rest key value
      (prior, (k, v) :: rest2)

/-- Model of `DashMap::remove`: removes any existing entry, returning the prior
value. -/
def mapRemove : Store → List Nat → Option RespValue × Store
  | [], _ => (none, [])
  | (k, v) :: rest, key =>
    if k = key then (some v, rest)
    else
      let (prior, rest2) := mapRemove rest key
      (prior, (k, v) :: rest2)

/-- Model of `DashMapStorage::get` (`impl Storage for DashMapStorage`): always `Ok`. -/
def DashMapStorage.get (m : Store) (key : List Nat) :
    Except StorageError (Option RespValue) :=
  .ok (mapLookup m key)

/-- Model of `DashMapStorage::set`: always `Ok`, returning the prior value and (in
this state-passing model) the updated map. -/
def DashMapStorage.set (m : Store) (key : List Nat) (value : RespValue) :
    Except StorageError (Option RespValue × Store) :=
  .ok (mapInsert m key value)

/-- Model of `DashMapStorage::delete`: always `Ok`. -/
def DashMapStorage.delete (m : Store) (key : List Nat) :
    Except StorageError (Option RespValue × Store) :=
  .ok (mapRemove m key)

/-- Model of `DashMapStorage::clear`: always `Ok`. -/
def DashMapStorage.clear (_ : Store) : Except StorageError Store :=
  .ok []

/-- Model of `DB::get` from `src/db/db.rs` (forwards to the storage, converting the
error type). -/
def DB.get (m : Store) (key : List Nat) : Except StorageError (Option RespValue) :=
  DashMapStorage.get m key

/-- Model of `DB::set`. -/
def DB.set (m : Store) (key : List Nat) (value : RespValue) :
    Except StorageError (Option RespValue × Store) :=
  DashMapStorage.set m key value

/-- Model of `DB::delete`: deletes each key in turn, propagating the first storage
error. -/
def DB.delete (m : Store) : List (List Nat) → Except StorageError Store
  | [] => .ok m
  | k :: ks =>
    match DashMapStorage.delete m k with
    | .error e => .error e
    | .ok (_, m2) => DB.delete m2 ks

/-- Model of `Command::exec` against the shared `DB`, in state-passing form: the reply
(or command-layer error) together with the storage contents afterwards. -/
def Command.exec (db : Store) : Command → Except CommandError RespValue × Store
  | .get key =>
    match DB.get db key with
    | .error e => (.error (.storageError e), db)
    | .ok (some value) => (.ok value, db)
    | .ok none => (.ok .null, db)
  | .set key value =>
    match DB.set db key (.bulkString (some value)) with
    | .error e => (.error (.storageError e), db)
    | .ok (_, db2) => (.ok (.simpleString (strBytes "OK")), db2)
  | .del keys =>
    match DB.delete db keys with
    | .error e => (.error (.storageError e), db)
    | .ok db2 => (.ok (.simpleString (strBytes "OK")), db2)
  | .ping => (.ok (.simpleString (strBytes "PONG")), db)
  | .unknown cmdName => (.error (.unknownCommand cmdName), db)
  | .info =>
    (.ok (.bulkString (some (strBytes "foobardb_version:1.0.0\r\nmode:standalone"))), db)
  | .command => (.ok (.simpleString (strBytes "OK")), db)
  | _ => (.error .notImplemented, db)

/-- Model of `MAX_BATCH_SIZE` from `src/server/client.rs`. -/
def MAX_BATCH_SIZE : Nat := 1024

/-- Model of `ClientConn::execute_batch`: run the batch and collect, in submission
order, what is appended to the write buffer for each command — the serialized
reply on `Ok`, the `-ERR …` line on `Err`.  (`join_all` awaits all command
futures and yields their results in submission order; the storage operations
are modelled as executing in that order.) -/
def executeBatch (db : Store) : List Command → List (Except CommandError RespValue) × Store
  | [] => ([], db)
  | cmd :: rest =>
    let (reply, db2) := Command.exec db cmd
    let (replies, db3) := executeBatch db2 rest
    (reply :: replies, db3)

/-- The inner `while let Ok(Some(resp)) = self.parser.try_parse()` loop of
`ClientConn::handle_connection`, over the sequence of `try_parse` outcomes
the drain produces: successful conversions are batched (with an
`execute_batch` flush at `MAX_BATCH_SIZE`), failed conversions are skipped
with no reply, and the first `Ok(None)` or parser-error outcome ends the
loop.  Returns the pending batch, the storage, and the replies written so
far. -/
def innerLoop (db : Store) (batch : List Command) :
    List (Except ParseError (Option RespValue)) →
    List Command × Store × List (Except CommandError RespValue)
  | [] => (batch, db, [])
  | .ok (some resp) :: rest =>
    (match Command.fromResp resp with
    | .ok cmd =>
      let batch2 := batch ++ [cmd]
      if MAX_BATCH_SIZE ≤ batch2.length then
        let (replies, db2) := executeBatch db batch2
        let (batch3, db3, replies3) := innerLoop db2 [] rest
        (batch3, db3, replies ++ replies3)
      else innerLoop db batch2 rest
    | .error _ => innerLoop db batch rest)
  | _ :: _ => (batch, db, [])

/-- One `Ok(n)` iteration of the read loop in `handle_connection`: drain the
parser, then execute any non-empty leftover batch.  The replies are listed in
the order they are written to the socket. -/
def handleRead (db : Store) (outcomes : List (Except ParseError (Option RespValue))) :
    List (Except CommandError RespValue) × Store :=
  let (batch, db2, replies) := innerLoop db [] outcomes
  match batch with
  | [] => (replies, db2)
  | _ :: _ =>
    let (replies2, db3) := executeBatch db2 batch
    (replies ++ replies2, db3)

/-- One socket-read result observed by the `handle_connection` loop: end of
stream, a read error, or a chunk of bytes whose `try_parse` drain produces
the given outcomes. -/
inductive ReadEvent where
  | eof
  | readErr
  | bytes (outcomes : List (Except ParseError (Option RespValue)))

/-- Model of `ClientConn::handle_connection` over a sequence of socket reads: `Ok(0)`
(EOF) and read errors break the loop; every other read is drained and
answered, and the loop continues — in particular it continues after a read
whose outcomes ended in a parser error. -/
def handleConnection (db : Store) : List ReadEvent → List (Except CommandError RespValue) × Store
  | [] => ([], db)
  | .eof :: _ => ([], db)
  | .readErr :: _ => ([], db)
  | .bytes outcomes :: rest =>
    let (replies, db2) := handleRead db outcomes
    let (replies2, db3) := handleConnection db2 rest
    (replies ++ replies2, db3)

/-- Shorthand for a non-null bulk string literal. -/
def bulkOf (s : String) : RespValue :=
  .bulkString (some (strBytes s))

/-- Behaviour of `handle_bulk_string` on a buffer that holds the declared
payload followed by CRLF at the resume position, for a valid-UTF-8 payload
within the length bound. -/
theorem handleBulkString_spec (maxLen n : Nat) (pre payload : List Nat)
    (h0 : n ≠ 0) (hle : n ≤ maxLen) (hlen : payload.length = n)
    (hutf : utf8Valid payload = true) :
    handleBulkString (pre ++ payload ++ [0x0D, 0x0A]) maxLen pre.length n
      = .complete (some (.bulkString (some payload))) := by
  have hbuf : (pre ++ payload ++ [0x0D, 0x0A]) = pre ++ (payload ++ [0x0D, 0x0A]) := by
    simp [List.append_assoc]
  have hlen2 : (pre ++ payload ++ [0x0D, 0x0A]).length = pre.length + n + 2 := by
    simp [List.length_append, hlen]
    omega
  have hdrop : (pre ++ payload ++ [0x0D, 0x0A]).drop pre.length = payload ++ [0x0D, 0x0A] := by
    rw [hbuf, List.drop_left]
  have htake : (payload ++ [0x0D, 0x0A]).take n = payload := List.take_left' hlen
  have hcr : (pre ++ payload ++ [0x0D, 0x0A]).getD (pre.length + n) 0 = 0x0D := by
    rw [hbuf]
    rw [List.getD_append_right _ _ _ _ (by omega)]
    have he : pre.length + n - pre.length = n := by omega
    rw [he]
    rw [List.getD_append_right _ _ _ _ (by omega)]
    simp [hlen]
  have hlf : (pre ++ payload ++ [0x0D, 0x0A]).getD (pre.length + n + 1) 0 = 0x0A := by
    rw [hbuf]
    rw [List.getD_append_right _ _ _ _ (by omega)]
    have he : pre.length + n + 1 - pre.length = n + 1 := by omega
    rw [he]
    rw [List.getD_append_right _ _ _ _ (by omega)]
    have he2 : n + 1 - payload.length = 1 := by omega
    simp [he2]
  unfold handleBulkString
  rw [if_neg (by omega)]
  rw [if_neg h0]
  simp only [hlen2, hcr, hlf, hdrop]
  rw [if_neg (by omega)]
  rw [if_neg (by simp)]
  rw [htake, hutf]
  simp

/-- An outcome whose conversion to `Command` fails is dropped by the inner
drain loop without any observable effect. -/
theorem innerLoop_skip (v : RespValue) (e : CommandError)
    (h : Command.fromResp v = .error e) (os2 : List (Except ParseError (Option RespValue))) :
    ∀ (os1 : List (Except ParseError (Option RespValue))) (db : Store) (batch : List Command),
    innerLoop db batch (os1 ++ .ok (some v) :: os2) = innerLoop db batch (os1 ++ os2) := by
  intro os1
  induction os1 with
  | nil =>
    intro db batch
    simp only [List.nil_append, innerLoop, h]
  | cons a os1 ih =>
    intro db batch
    match a with
    | .ok (some r) =>
      simp only [List.cons_append, innerLoop]
      cases hr : Command.fromResp r with
      | ok cmd =>
        by_cases hb : MAX_BATCH_SIZE ≤ (batch ++ [cmd]).length
        · simp only [hb, if_pos, List.append_eq]
          rw [ih]
        · simp only [hb, if_neg, if_false, List.append_eq]
          exact ih db (batch ++ [cmd])
      | error e2 => exact ih db batch
    | .ok none => simp only [List.cons_append, innerLoop]
    | .error pe => simp only [List.cons_append, innerLoop]

/-- Lookup after insert at the same key. -/
theorem mapLookup_insert_self (m : Store) (k : List Nat) (v : RespValue) :
    mapLookup (mapInsert m k v).2 k = some v := by
  induction m with
  | nil => simp [mapInsert, mapLookup]
  | cons p m ih =>
    obtain ⟨k2, v2⟩ := p
    by_cases hk : k2 = k
    · simp [mapInsert, hk, mapLookup]
    · simp [mapInsert, hk, mapLookup, ih]

/-- Lookup after insert at a different key. -/
theorem mapLookup_insert_ne (m : Store) (k2 k : List Nat) (v : RespValue)
    (h : k2 ≠ k) : mapLookup (mapInsert m k2 v).2 k = mapLookup m k := by
  induction m with
  | nil => simp [mapInsert, mapLookup, h]
  | cons p m ih =>
    obtain ⟨k3, v3⟩ := p
    by_cases hk : k3 = k2
    · subst hk
      simp [mapInsert, mapLookup, h]
    · by_cases hk3 : k3 = k
      · simp [mapInsert, hk, mapLookup, hk3, Ne.symm h]
      · simp [mapInsert, hk, mapLookup, hk3, ih]

/-- Lookup after removal of a different key. -/
theorem mapLookup_remove_ne (m : Store) (k2 k : List Nat) (h : k2 ≠ k) :
    mapLookup (mapRemove m k2).2 k = mapLookup m k := by
  induction m with
  | nil => simp [mapRemove, mapLookup]
  | cons p m ih =>
    obtain ⟨k3, v3⟩ := p
    by_cases hk : k3 = k2
    · subst hk
      simp [mapRemove, mapLookup, h, Ne.symm h]
    · by_cases hk3 : k3 = k
      · simp [mapRemove, hk, mapLookup, hk3, Ne.symm h]
      · simp [mapRemove, hk, mapLookup, hk3, ih]

/-- Deleting a set of keys not containing `k` preserves the binding of `k`. -/
theorem DB.delete_preserves (k : List Nat) :
    ∀ (ks : List (List Nat)) (m m2 : Store), k ∉ ks →
      DB.delete m ks = .ok m2 → mapLookup m2 k = mapLookup m k := by
  intro ks
  induction ks with
  | nil =>
    intro m m2 _ h
    simp only [DB.delete] at h
    cases h
    rfl
  | cons k2 ks ih =>
    intro m m2 hmem h
    simp only [DB.delete, DashMapStorage.delete] at h
    have hne : k2 ≠ k := fun hc => hmem (hc ▸ List.mem_cons_self k2 ks)
    have := ih (mapRemove m k2).2 m2 (fun hc => hmem (List.mem_cons_of_mem _ hc)) h
    rw [this, mapLookup_remove_ne m k2 k hne]

/-- Does executing the command write (insert or delete) the given key? -/
def writesKey (k : List Nat) : Command → Prop
  | .set k2 _ => k2 = k
  | .del ks => k ∈ ks
  | _ => False

/-- Executing a command that does not write `k` leaves the binding of `k`
unchanged. -/
theorem exec_preserves_lookup (c : Command) (k : List Nat) (db : Store)
    (h : ¬ writesKey k c) :
    mapLookup (Command.exec db c).2 k = mapLookup db k := by
  cases c with
  | get key =>
    simp only [Command.exec, DB.get, DashMapStorage.get]
    cases mapLookup db key <;> rfl
  | set key value =>
    have hne : key ≠ k := h
    simp only [Command.exec, DB.set, DashMapStorage.set]
    exact mapLookup_insert_ne db key k _ hne
  | del keys =>
    have hmem : k ∉ keys := h
    simp only [Command.exec]
    cases hdel : DB.delete db keys with
    | error e => rfl
    | ok db2 =>
      exact DB.delete_preserves k keys db db2 hmem hdel
  | lpush key values => rfl
  | rpush key values => rfl
  | lpop key => rfl
  | rpop key => rfl
  | sadd key members => rfl
  | srem key members => rfl
  | hset key field value => rfl
  | hget key field => rfl
  | ping => rfl
  | echo message => rfl
  | unknown cmdName => rfl
  | info => rfl
  | command => rfl

/-- Fold a command list through `Command::exec`, keeping only the storage. -/
def execCommands (db : Store) : List Command → Store
  | [] => db
  | c :: cs => execCommands (Command.exec db c).2 cs

/-- A sequence of commands none of which writes `k` preserves the binding of
`k`. -/
theorem execCommands_preserves (k : List Nat) :
    ∀ (cmds : List Command) (db : Store), (∀ c ∈ cmds, ¬ writesKey k c) →
      mapLookup (execCommands db cmds) k = mapLookup db k := by
  intro cmds
  induction cmds with
  | nil => intro db _; rfl
  | cons c cs ih =>
    intro db h
    simp only [execCommands]
    rw [ih _ (fun c2 hc => h c2 (List.mem_cons_of_mem _ hc))]
    exact exec_preserves_lookup c k db (h c (List.mem_cons_self c cs))

/-- Every run of `DB::delete` succeeds. -/
theorem DB.delete_isOk (keys : List (List Nat)) :
    ∀ db : Store, ∃ m2, DB.delete db keys = .ok m2 := by
  induction keys with
  | nil => intro db; exact ⟨db, rfl⟩
  | cons k ks ih =>
    intro db
    simp only [DB.delete, DashMapStorage.delete]
    exact ih (mapRemove db k).2

/-- C1: the claim says that after two complete frames are appended in one
call, two successive successful `try_parse` calls return the first and then
the second frame, with the bytes of the second preserved in the buffer after
the first call.  Evaluating the code at the frames `:1\r\n` and `:2\r\n`
appended together shows the opposite: the first call does return
`Integer(1)`, but `try_parse` clears the whole buffer (its success path runs
`self.buffer.clear()`), so the bytes of the second frame are gone and the
second call exhausts the iteration budget on an empty buffer instead of
returning `Integer(2)`. -/
theorem C1_buffer_cleared_second_frame_lost :
    (((Parser.new 10 1024).readBuf (strBytes ":1\r\n:2\r\n")).tryParse).1
      = .ok (some (.integer 1))
    ∧ (((Parser.new 10 1024).readBuf (strBytes ":1\r\n:2\r\n")).tryParse).2.buffer = []
    ∧ ((((Parser.new 10 1024).readBuf (strBytes ":1\r\n:2\r\n")).tryParse).2.tryParse).1
      = .error (.invalidFormat "Maximum parsing iterations exceeded") :=
  ⟨rfl, rfl, rfl⟩

/-- C2: the claim says a successful `try_parse` on a complete `*n` array
frame returns the assembled `Array` of its `n` parsed elements.  Evaluating
the code on the complete frame `*2\r\n:1\r\n:2\r\n` shows it returns
`Integer(1)` — an inner element — instead: after an element completes, the
loop continues without resetting `self.state`, re-parses the first element
into the open frame a second time, and then returns the bare inner `value`
rather than the closed array.  The parser tests of the repository
(`parser_test.rs`, `test_array`) expect the assembled array here. -/
theorem C2_array_parse_returns_inner_element :
    (((Parser.new 10 1024).readBuf (strBytes "*2\r\n:1\r\n:2\r\n")).tryParse).1
      = .ok (some (.integer 1)) :=
  rfl

/-- C3: the claim says an incomplete frame makes `try_parse` report
need-more-data, consuming nothing and preserving the resumable state so a
later append completes the same message.  Evaluating the code shows two
divergences: on the incomplete array `*2\r\n:1\r\n` the call returns a bogus
success `Integer(1)` and clears the buffer (no need-more-data report, bytes
consumed), and on the incomplete bulk string `$5\r\nhel` the call reports
`Err(NotEnoughData)` but resets the state to `Index {pos: 0}` instead of
preserving the `ReadingBulkString` resume point.  The parser tests of the
repository expect `Ok(None)` with preserved state in both situations. -/
theorem C3_incomplete_input_not_resumable :
    (((Parser.new 10 1024).readBuf (strBytes "*2\r\n:1\r\n")).tryParse).1
      = .ok (some (.integer 1))
    ∧ (((Parser.new 10 1024).readBuf (strBytes "*2\r\n:1\r\n")).tryParse).2.buffer = []
    ∧ (((Parser.new 10 1024).readBuf (strBytes "$5\r\nhel")).tryParse).1
      = .error .notEnoughData
    ∧ (((Parser.new 10 1024).readBuf (strBytes "$5\r\nhel")).tryParse).2.state = .index 0 :=
  ⟨rfl, rfl, rfl, rfl⟩

/-- C4: the claim says an array nested `max_depth + 1` deep fails with
`DepthExceeded`.  The code has no such check: `ParseError` has no
`DepthExceeded` variant at all, and `handle_array` pushes a frame onto the
nested stack without ever consulting `max_depth`.  Evaluating a parser built
with `max_depth = 1` on the depth-2 input `*1\r\n*1\r\n:7\r\n` shows the
parse "succeeds" with the inner `Integer(7)` and even leaves the outer array
frame stranded on the stack. -/
theorem C4_depth_limit_never_enforced :
    (((Parser.new 1 1000).readBuf (strBytes "*1\r\n*1\r\n:7\r\n")).tryParse).1
      = .ok (some (.integer 7))
    ∧ (((Parser.new 1 1000).readBuf (strBytes "*1\r\n*1\r\n:7\r\n")).tryParse).2.nestedStack
      = [.readingArray 4 1 0 [.array (some [.integer 7])]] :=
  ⟨rfl, rfl⟩

/-- C5: the claim (and the spec) treat `$0\r\n\r\n` as an empty, non-null
`BulkString` whose whole frame, trailing CRLF included, is consumed.
Evaluating the code shows `handle_bulk_string` returns `BulkString(None)` —
the null form, the very value the spec reserves for `$-1\r\n` — without even
looking at the trailing CRLF; and because the emitted value is a null form,
`try_parse` neither clears the buffer nor resets the state, so nothing at
all is consumed. -/
theorem C5_zero_length_bulk_decodes_to_null_form :
    (((Parser.new 10 1024).readBuf (strBytes "$0\r\n\r\n")).tryParse).1
      = .ok (some (.bulkString none))
    ∧ (((Parser.new 10 1024).readBuf (strBytes "$0\r\n\r\n")).tryParse).2.buffer
      = strBytes "$0\r\n\r\n"
    ∧ (((Parser.new 10 1024).readBuf (strBytes "$0\r\n\r\n")).tryParse).2.state
      = .readingBulkString 4 0 :=
  ⟨rfl, rfl, rfl⟩

/-- C6 counterexample: the claim says bulk-string payloads are opaque bytes,
so non-UTF-8 payloads parse successfully.  Evaluating the code on the frame
`$1\r\n<0xFF>\r\n` shows the parse fails: `handle_bulk_string` runs the
payload through `String::from_utf8` and turns invalid UTF-8 into an
`InvalidFormat("Invalid UTF-8")` error. -/
theorem C6_non_utf8_payload_rejected :
    (((Parser.new 10 1024).readBuf (strBytes "$1\r\n" ++ [0xFF] ++ strBytes "\r\n")).tryParse).1
      = .error (.invalidFormat "Invalid UTF-8") :=
  rfl

/-- C6 (amended): for every declared length `n` with `0 < n ≤ max_length`
and every `n`-byte payload followed by CRLF present in the buffer at the
resume position, `try_parse` emits a `BulkString` of exactly those `n`
bytes — provided the payload is valid UTF-8 (the code, contrary to the
claim, validates UTF-8 and rejects other payloads). -/
theorem C6_bulk_body_emits_exact_bytes (d maxLen n : Nat) (pre payload : List Nat)
    (h0 : 0 < n) (hle : n ≤ maxLen) (hlen : payload.length = n)
    (hutf : utf8Valid payload = true) :
    (Parser.tryParse
      { buffer := pre ++ payload ++ [0x0D, 0x0A]
        state := .readingBulkString pre.length n
        maxDepth := d
        maxLength := maxLen
        nestedStack := [] }).1
      = .ok (some (.bulkString (some payload))) := by
  show (tryParseLoop 128 _).1 = _
  rw [show (128 : Nat) = 127 + 1 from rfl]
  rw [tryParseLoop]
  simp only [stepState]
  rw [handleBulkString_spec maxLen n pre payload (by omega) hle hlen hutf]
  simp [finishValue, RespValue.isNoneValue]

/-- C6 witness: the amended theorem applied at length 2 and payload `hi`. -/
theorem C6_bulk_body_emits_exact_bytes_witness :
    0 < 2 ∧ 2 ≤ 1024 ∧ (strBytes "hi").length = 2
    ∧ utf8Valid (strBytes "hi") = true
    ∧ (Parser.tryParse
      { buffer := [] ++ strBytes "hi" ++ [0x0D, 0x0A]
        state := .readingBulkString (List.length ([] : List Nat)) 2
        maxDepth := 10
        maxLength := 1024
        nestedStack := [] }).1
      = .ok (some (.bulkString (some (strBytes "hi")))) :=
  ⟨by decide, by decide, rfl, rfl,
    C6_bulk_body_emits_exact_bytes 10 1024 2 [] (strBytes "hi")
      (by decide) (by decide) rfl rfl⟩

/-- C7 counterexample: the claim says every command of the arity table,
`PING` (exactly 1) included, fails with `WrongNumberOfArguments` when called
with the wrong number of elements.  Evaluating `Command::from_resp` on
`["PING", "x"]` (two elements) shows it succeeds with `Command::Ping`: the
`PING` arm of the source performs no arity check at all. -/
theorem C7_ping_extra_arg_accepted :
    Command.fromResp (.array (some [bulkOf "PING", bulkOf "x"])) = .ok .ping :=
  rfl

/-- C7 (amended): the arity checks the code actually performs.  `GET`
(exactly 2), `SET` (exactly 3), `DEL` (at least 2) and `LPUSH` (at least 3)
fail with `WrongNumberOfArguments` naming the command — and, failing in
`from_resp`, never reach `exec`, so no storage mutation occurs.  `PING`,
`INFO` and `COMMAND` accept any number of elements, and `ECHO` (like the
remaining list/set/hash verbs) has no arm at all: it parses as `Unknown`. -/
theorem C7_arity_checks_as_implemented (rest : List RespValue) :
    ((bulkOf "GET" :: rest).length ≠ 2 →
      Command.fromResp (.array (some (bulkOf "GET" :: rest)))
        = .error (.wrongNumberOfArguments "get"))
    ∧ ((bulkOf "SET" :: rest).length ≠ 3 →
      Command.fromResp (.array (some (bulkOf "SET" :: rest)))
        = .error (.wrongNumberOfArguments "set"))
    ∧ ((bulkOf "DEL" :: rest).length < 2 →
      Command.fromResp (.array (some (bulkOf "DEL" :: rest)))
        = .error (.wrongNumberOfArguments "del"))
    ∧ ((bulkOf "LPUSH" :: rest).length < 3 →
      Command.fromResp (.array (some (bulkOf "LPUSH" :: rest)))
        = .error (.wrongNumberOfArguments "lpush"))
    ∧ Command.fromResp (.array (some (bulkOf "PING" :: rest))) = .ok .ping
    ∧ Command.fromResp (.array (some (bulkOf "INFO" :: rest))) = .ok .info
    ∧ Command.fromResp (.array (some (bulkOf "COMMAND" :: rest))) = .ok .command
    ∧ Command.fromResp (.array (some (bulkOf "ECHO" :: rest)))
        = .ok (.unknown (strBytes "ECHO")) := by
  refine ⟨?_, ?_, ?_, ?_, rfl, rfl, rfl, rfl⟩
  · intro h
    show fromRespNamed (strBytes "GET") (bulkOf "GET" :: rest) = _
    unfold fromRespNamed
    rw [if_pos rfl, if_pos h]
  · intro h
    show fromRespNamed (strBytes "SET") (bulkOf "SET" :: rest) = _
    unfold fromRespNamed
    rw [if_neg (by decide), if_pos rfl, if_pos h]
  · intro h
    show fromRespNamed (strBytes "DEL") (bulkOf "DEL" :: rest) = _
    unfold fromRespNamed
    rw [if_neg (by decide), if_neg (by decide), if_pos rfl, if_pos h]
  · intro h
    show fromRespNamed (strBytes "LPUSH") (bulkOf "LPUSH" :: rest) = _
    unfold fromRespNamed
    rw [if_neg (by decide), if_neg (by decide), if_neg (by decide), if_pos rfl, if_pos h]

/-- C7 witness: the amended theorem applied to a bare `GET` (one element). -/
theorem C7_arity_checks_as_implemented_witness :
    (bulkOf "GET" :: ([] : List RespValue)).length ≠ 2
    ∧ Command.fromResp (.array (some [bulkOf "GET"]))
      = .error (.wrongNumberOfArguments "get") :=
  ⟨by decide, (C7_arity_checks_as_implemented []).1 (by decide)⟩

/-- C8 counterexample: the claim says a parsed value whose conversion to
`Command` fails gets an error response serialized immediately, and that
parser errors terminate the connection.  Evaluating the pipeline on a first
read whose outcomes are an arity-violating `GET` (conversion fails) followed
by a parser error, and a second read carrying a `PING`, shows the opposite
on both counts: the only reply ever produced is the `PONG` of the second
read — the failed conversion produced no reply at all (the `if let Ok(cmd)`
in `handle_connection` silently drops it), and the connection kept serving
after the parser error (which merely ends the inner drain loop). -/
theorem C8_failed_conversion_silently_dropped :
    handleConnection []
      [.bytes [.ok (some (.array (some [bulkOf "GET"]))), .error .unexpectedEof],
       .bytes [.ok (some (.array (some [bulkOf "PING"])))]]
      = ([.ok (.simpleString (strBytes "PONG"))], []) :=
  rfl

/-- C8 (amended): in the inner drain loop a parsed value whose conversion to
`Command` fails is skipped with no reply and no other observable effect, and
a parser error does not itself terminate the connection: it merely ends the
inner drain loop, and the connection serves subsequent reads.  (Socket-level
failures, which also end the connection, are outside this statement.) -/
theorem C8_conversion_failures_skipped_parser_errors_survived
    (db : Store) (os1 os2 : List (Except ParseError (Option RespValue)))
    (v : RespValue) (e : CommandError) (perr : ParseError) (reads : List ReadEvent)
    (h : Command.fromResp v = .error e) :
    handleRead db (os1 ++ .ok (some v) :: os2) = handleRead db (os1 ++ os2)
    ∧ handleConnection db (.bytes [.error perr] :: reads) = handleConnection db reads := by
  constructor
  · unfold handleRead
    rw [innerLoop_skip v e h os2 os1 db []]
  · show (let (replies, db2) := handleRead db [.error perr]
          let (replies2, db3) := handleConnection db2 reads
          (replies ++ replies2, db3)) = handleConnection db reads
    simp [handleRead, innerLoop]

/-- C8 witness: the amended theorem applied to an arity-violating `GET`
conversion failure and an `UnexpectedEof` parser error, on the empty store. -/
theorem C8_conversion_failures_skipped_parser_errors_survived_witness :
    Command.fromResp (.array (some [bulkOf "GET"])) = .error (.wrongNumberOfArguments "get")
    ∧ (handleRead [] ([] ++ .ok (some (.array (some [bulkOf "GET"]))) :: [])
        = handleRead [] ([] ++ [])
      ∧ handleConnection [] (.bytes [.error .unexpectedEof] :: [])
        = handleConnection [] []) :=
  ⟨rfl,
    C8_conversion_failures_skipped_parser_errors_survived [] [] []
      (.array (some [bulkOf "GET"])) (.wrongNumberOfArguments "get")
      .unexpectedEof [] rfl⟩

/-- C9: `SET key value` replies `SimpleString("OK")` and stores the value
wrapped as a `BulkString`; any later `GET key` — after any sequence of
commands none of which writes that key — replies `BulkString(value)`; and
`GET` of an absent key replies `Null`. -/
theorem C9_set_then_get_roundtrip (db : Store) (k v k2 : List Nat)
    (cmds : List Command)
    (h : ∀ c ∈ cmds, ¬ writesKey k c) (h2 : mapLookup db k2 = none) :
    (Command.exec db (.set k v)).1 = .ok (.simpleString (strBytes "OK"))
    ∧ (Command.exec (execCommands (Command.exec db (.set k v)).2 cmds) (.get k)).1
      = .ok (.bulkString (some v))
    ∧ (Command.exec db (.get k2)).1 = .ok .null := by
  refine ⟨rfl, ?_, ?_⟩
  · simp only [Command.exec, DB.set, DashMapStorage.set, DB.get, DashMapStorage.get]
    rw [execCommands_preserves k cmds _ h, mapLookup_insert_self]
  · simp only [Command.exec, DB.get, DashMapStorage.get, h2]

/-- C9 witness: the theorem applied on the empty store with key `key`,
value `value`, no intervening commands, and absent key `missing`. -/
theorem C9_set_then_get_roundtrip_witness :
    (∀ c ∈ ([] : List Command), ¬ writesKey (strBytes "key") c)
    ∧ mapLookup [] (strBytes "missing") = none
    ∧ ((Command.exec [] (.set (strBytes "key") (strBytes "value"))).1
        = .ok (.simpleString (strBytes "OK"))
      ∧ (Command.exec
          (execCommands (Command.exec [] (.set (strBytes "key") (strBytes "value"))).2 [])
          (.get (strBytes "key"))).1 = .ok (.bulkString (some (strBytes "value")))
      ∧ (Command.exec [] (.get (strBytes "missing"))).1 = .ok .null) :=
  ⟨fun c hc => absurd hc (List.not_mem_nil c), rfl,
    C9_set_then_get_roundtrip [] (strBytes "key") (strBytes "value") (strBytes "missing") []
      (fun c hc => absurd hc (List.not_mem_nil c)) rfl⟩

/-- C10: every operation of the DashMap-backed storage and of the `DB`
wrapper returns `Ok` on every input, and no `Command::exec` result is ever
the `StorageError` branch — the `-ERR storage error` reply is unreachable
with this storage implementation. -/
theorem C10_storage_never_errors (db : Store) (key : List Nat) (value : RespValue)
    (keys : List (List Nat)) (cmd : Command) (e : StorageError) :
    (∃ x, DashMapStorage.get db key = .ok x)
    ∧ (∃ x, DashMapStorage.set db key value = .ok x)
    ∧ (∃ x, DashMapStorage.delete db key = .ok x)
    ∧ (∃ x, DashMapStorage.clear db = .ok x)
    ∧ (∃ x, DB.get db key = .ok x)
    ∧ (∃ x, DB.set db key value = .ok x)
    ∧ (∃ x, DB.delete db keys = .ok x)
    ∧ (Command.exec db cmd).1 ≠ .error (.storageError e) := by
  refine ⟨⟨_, rfl⟩, ⟨_, rfl⟩, ⟨_, rfl⟩, ⟨_, rfl⟩, ⟨_, rfl⟩, ⟨_, rfl⟩,
    DB.delete_isOk keys db, ?_⟩
  cases cmd with
  | get key2 =>
    simp only [Command.exec, DB.get, DashMapStorage.get]
    cases mapLookup db key2 <;> simp
  | set key2 value2 =>
    simp [Command.exec, DB.set, DashMapStorage.set]
  | del keys2 =>
    obtain ⟨m2, hm2⟩ := DB.delete_isOk keys2 db
    simp [Command.exec, hm2]
  | lpush key2 values2 => simp [Command.exec]
  | rpush key2 values2 => simp [Command.exec]
  | lpop key2 => simp [Command.exec]
  | rpop key2 => simp [Command.exec]
  | sadd key2 members2 => simp [Command.exec]
  | srem key2 members2 => simp [Command.exec]
  | hset key2 field2 value2 => simp [Command.exec]
  | hget key2 field2 => simp [Command.exec]
  | ping => simp [Command.exec]
  | echo message2 => simp [Command.exec]
  | unknown cmdName2 => simp [Command.exec]
  | info => simp [Command.exec]
  | command => simp [Command.exec]

/-- C10 witness: the theorem applied on the empty store at concrete inputs. -/
theorem C10_storage_never_errors_witness :
    (∃ x, DashMapStorage.get [] (strBytes "k") = .ok x)
    ∧ (∃ x, DashMapStorage.set [] (strBytes "k") .null = .ok x)
    ∧ (∃ x, DashMapStorage.delete [] (strBytes "k") = .ok x)
    ∧ (∃ x, DashMapStorage.clear [] = .ok x)
    ∧ (∃ x, DB.get [] (strBytes "k") = .ok x)
    ∧ (∃ x, DB.set [] (strBytes "k") .null = .ok x)
    ∧ (∃ x, DB.delete [] [strBytes "k"] = .ok x)
    ∧ (Command.exec [] .ping).1 ≠ .error (.storageError (.internal "boom")) :=
  C10_storage_never_errors [] (strBytes "k") .null [strBytes "k"] .ping (.internal "boom")
